import Mathlib

/-!
Shallow embedding of the curl agent worker from `src/internal/agent.rs`.

The agent owns a token table (a `Slab` of active transfers), a message
channel from the handles, a wake notifier, and a curl multi handle.  We
model:

* the token table as an association list `List (Nat × Nat)` mapping a
  token to the identifier of the request stored in that slot;
* the set of transfers currently registered with the curl multi handle
  as a `List Nat` of tokens;
* fallible curl calls (`add2`, `set_token`, `remove2`, `unpause_write`,
  `perform`, `get_timeout`, `wait`) through a boolean `Oracle` saying
  whether each kind of call succeeds;
* the handle side (`send_message`, `begin_execute`, `cancel_request`,
  `unpause_write`) as pure functions over a channel state;
* the agent main loop (`Agent::run`) as a fuel-indexed function over a
  closed world holding the pending messages, the per-iteration curl
  timeout suggestions and the per-iteration completion events.

Observable effects (engine registration changes, handler callbacks,
warnings, the timeout passed to `multi.wait`) are recorded as `Event`s.
-/

namespace IsahcAgent

/-- Error type of the crate, restricted to the variants the agent code
can produce: `internal` for `Error::Internal`, and `curl c` standing for
an error bubbled up from a curl call. -/
inductive Error where
  | internal
  | curl (code : Nat)
deriving DecidableEq, Repr

/-- Message sent from a handle to the agent thread (`enum Message`). -/
inductive Message where
  | cancel (token : Nat)
  | close
  | beginRequest (reqId : Nat)
  | unpauseWrite (token : Nat)
deriving DecidableEq, Repr

/-- Result of one transfer as reported by the curl multi handle. -/
inductive EngineResult where
  | ok
  | err (code : Nat)
deriving DecidableEq, Repr

/-- Observable effects of the agent loop. -/
inductive Event where
  | engineAdd (token : Nat)
  | engineRemove (token : Nat)
  | unpause (token : Nat)
  | warnUnknownToken (token : Nat)
  | completed (token reqId : Nat)
  | failed (token reqId code : Nat)
  | wait (timeoutMs : Nat)
deriving DecidableEq, Repr

/-- Success or failure of each kind of fallible curl call made by the
agent.  The agent code propagates any such failure with `?`. -/
structure Oracle where
  add2Ok : Bool
  setTokenOk : Bool
  remove2Ok : Bool
  unpauseOk : Bool
  performOk : Bool
  getTimeoutOk : Bool
  waitOk : Bool
deriving DecidableEq, Repr

/-- Tokens currently present in the token table. -/
def slabKeys (l : List (Nat × Nat)) : List Nat := l.map Prod.fst

/-- Lookup of a token in the table (`Slab::get`). -/
def slabGet (l : List (Nat × Nat)) (t : Nat) : Option Nat :=
  match l with
  | [] => none
  | e :: tl => if e.1 = t then some e.2 else slabGet tl t

/-- Removal of a token from the table (`Slab::remove`, minus its panic,
which callers model separately). -/
def slabRemove (l : List (Nat × Nat)) (t : Nat) : List (Nat × Nat) :=
  l.filter (fun e => decide (e.1 ≠ t))

/-- Key handed out by `Slab::vacant_entry`: a small integer not
currently used by any entry (the smallest such, in this model). -/
def vacantKey (l : List (Nat × Nat)) : Nat :=
  ((List.range (l.length + 1)).filter (fun n => decide (n ∉ slabKeys l))).headD (l.length + 1)

/-- State owned by the agent thread (`struct Agent`), minus the
receivers and the weak back-reference, which the loop model threads
explicitly. -/
structure AgentState where
  requests : List (Nat × Nat)
  multiRegs : List Nat
  closeRequested : Bool
deriving DecidableEq, Repr

/-- Agent message dispatch (`Agent::handle_message`).  Returns the new
agent state and the recorded effects, or the error propagated from a
failed curl call. -/
def handle_message (o : Oracle) (s : AgentState) (m : Message) :
    Except Error (AgentState × List Event) :=
  match m with
  | .close => .ok ({ s with closeRequested := true }, [])
  | .beginRequest reqId =>
      if o.add2Ok then
        let t := vacantKey s.requests
        if o.setTokenOk then
          .ok ({ s with requests := (t, reqId) :: s.requests,
                        multiRegs := t :: s.multiRegs }, [.engineAdd t])
        else .error (.curl 0)
      else .error (.curl 0)
  | .cancel t =>
      if t ∈ slabKeys s.requests then
        if o.remove2Ok then
          .ok ({ s with requests := slabRemove s.requests t,
                        multiRegs := s.multiRegs.filter (fun k => decide (k ≠ t)) },
               [.engineRemove t])
        else .error (.curl 0)
      else .ok (s, [])
  | .unpauseWrite t =>
      match slabGet s.requests t with
      | some _ => if o.unpauseOk then .ok (s, [.unpause t]) else .error (.curl 0)
      | none => .ok (s, [.warnUnknownToken t])

/-- Default bound used for the blocking wait when curl suggests no
timeout (`DEFAULT_TIMEOUT_MS`). -/
def DEFAULT_TIMEOUT_MS : Nat := 1000

/-- State of the message channel and wake notifier shared between the
handles and the agent: pending messages plus the number of wake pings
sent so far. -/
structure ChannelState where
  queue : List Message
  pings : Nat
deriving DecidableEq, Repr

/-- Message send from a handle (`HandleInner::send_message`): if the
terminated flag is set, return `Error::Internal` without touching the
channel; otherwise enqueue the message and ping the wake notifier. -/
def send_message (terminated : Bool) (ch : ChannelState) (m : Message) :
    Except Error Unit × ChannelState :=
  if terminated then (.error .internal, ch)
  else (.ok (), { queue := ch.queue ++ [m], pings := ch.pings + 1 })

/-- Request object as the handle sees it: an identifier plus whether
`set_agent` has bound it to an owning handle. -/
structure CurlRequest where
  reqId : Nat
  agentBound : Bool
deriving DecidableEq, Repr

/-- Handle operation `Handle::begin_execute`: binds the request to the
handle via `set_agent` first, then sends `BeginRequest`.  Returns the
request object after the side effect together with the send result. -/
def begin_execute (terminated : Bool) (ch : ChannelState) (req : CurlRequest) :
    CurlRequest × (Except Error Unit × ChannelState) :=
  let req' := { req with agentBound := true }
  (req', send_message terminated ch (.beginRequest req'.reqId))

/-- Handle operation `Handle::cancel_request`. -/
def cancel_request (terminated : Bool) (ch : ChannelState) (t : Nat) :
    Except Error Unit × ChannelState :=
  send_message terminated ch (.cancel t)

/-- Handle operation `Handle::unpause_write`. -/
def unpause_write (terminated : Bool) (ch : ChannelState) (t : Nat) :
    Except Error Unit × ChannelState :=
  send_message terminated ch (.unpauseWrite t)

/-- Result of an agent-thread computation that can also panic (the
`Slab::remove` inside `complete_request`/`fail_request` panics when the
token is vacant). -/
inductive DRes (α : Type) where
  | ok (a : α)
  | err (e : Error)
  | panicked
deriving DecidableEq, Repr

/-- Completion resolution for one token (`Agent::complete_request`):
remove the slab entry (panicking if absent), deregister from the multi
handle, and fire the handler completion callback. -/
def complete_request (o : Oracle) (s : AgentState) (token : Nat) :
    DRes (AgentState × List Event) :=
  match slabGet s.requests token with
  | none => .panicked
  | some reqId =>
      if o.remove2Ok then
        .ok ({ s with requests := slabRemove s.requests token,
                      multiRegs := s.multiRegs.filter (fun k => decide (k ≠ token)) },
             [.engineRemove token, .completed token reqId])
      else .err (.curl 0)

/-- Failure resolution for one token (`Agent::fail_request`): remove the
slab entry (panicking if absent), deregister from the multi handle, and
fire the handler failure callback with the curl error. -/
def fail_request (o : Oracle) (s : AgentState) (token : Nat) (code : Nat) :
    DRes (AgentState × List Event) :=
  match slabGet s.requests token with
  | none => .panicked
  | some reqId =>
      if o.remove2Ok then
        .ok ({ s with requests := slabRemove s.requests token,
                      multiRegs := s.multiRegs.filter (fun k => decide (k ≠ token)) },
             [.engineRemove token, .failed token reqId code])
      else .err (.curl 0)

/-- Resolution of one `(token, result)` pair: the body of the `for`
loop in `Agent::dispatch`. -/
def resolve_one (o : Oracle) (s : AgentState) : Nat × EngineResult → DRes (AgentState × List Event)
  | (t, .ok) => complete_request o s t
  | (t, .err c) => fail_request o s t c

/-- Resolution of the `(token, result)` pairs collected from
`multi.messages` (the `for` loop in `Agent::dispatch`). -/
def dispatch_results (o : Oracle) (s : AgentState) :
    List (Nat × EngineResult) → DRes (AgentState × List Event)
  | [] => .ok (s, [])
  | p :: rest =>
      match resolve_one o s p with
      | .ok (s', evs) =>
          match dispatch_results o s' rest with
          | .ok (s'', evs') => .ok (s'', evs ++ evs')
          | .err e => .err e
          | .panicked => .panicked
      | .err e => .err e
      | .panicked => .panicked

/-- Progress step (`Agent::dispatch`): `multi.perform()?`, then collect
the finished transfers and resolve each one.  The collected pairs are an
input here, since the curl engine is external. -/
def dispatch (o : Oracle) (s : AgentState) (results : List (Nat × EngineResult)) :
    DRes (AgentState × List Event) :=
  if o.performOk then dispatch_results o s results else .err (.curl 0)

/-- Result of draining the message channel. -/
inductive PRes where
  | ok (s : AgentState)
  | err (e : Error)
  | blocked (s : AgentState)
deriving DecidableEq, Repr

/-- Message drain (`Agent::poll_messages`): while the token table is
empty use a blocking `recv` (blocking forever — `.blocked` — if the
queue is empty and some sender is still alive, and setting
`close_requested` if all senders are gone), otherwise use `try_recv`
and stop at the first empty poll. -/
def poll_messages (o : Oracle) (connected : Bool) :
    AgentState → List Message → PRes
  | s, [] =>
      if s.requests.isEmpty then
        if connected then .blocked s
        else .ok { s with closeRequested := true }
      else .ok s
  | s, m :: rest =>
      match handle_message o s m with
      | .ok (s', _) => poll_messages o connected s' rest
      | .error e => .err e

/-- Closed world driving one run of the agent loop: the initial agent
state, the messages already in the channel, whether any sender is still
alive, and per-iteration inputs from the curl engine (the timeout
suggested by `get_timeout` and the completion events). -/
structure World where
  agent : AgentState
  queue : List Message
  connected : Bool
  timeouts : List (Option Nat)
  completions : List (List (Nat × EngineResult))
deriving DecidableEq, Repr

/-- Outcome of the agent main loop. -/
inductive Outcome where
  | terminated (s : AgentState)
  | errored (e : Error)
  | panicked
  | blocked
deriving DecidableEq, Repr

/-- Blocking timeout for one loop iteration, from the line
`self.multi.get_timeout()?.unwrap_or(Duration::from_millis(DEFAULT_TIMEOUT_MS))`:
the curl-suggested timeout when there is one, the default otherwise. -/
def loopTimeout (suggested : Option Nat) : Nat :=
  suggested.getD DEFAULT_TIMEOUT_MS

/-- Agent main loop (`Agent::run`), fuel-indexed: per iteration, break
when `close_requested` and the table is empty; drain messages; compute
the wait timeout with `loopTimeout`; block in `multi.wait` (recorded as
a `.wait` event); drain the notifier; run the progress step.  Returns
`none` when the fuel runs out. -/
def run_loop (o : Oracle) : Nat → World → Option (Outcome × List Event)
  | 0, _ => none
  | fuel + 1, w =>
      if w.agent.closeRequested && w.agent.requests.isEmpty then
        some (.terminated w.agent, [])
      else
        match poll_messages o w.connected w.agent w.queue with
        | .err e => some (.errored e, [])
        | .blocked _ => some (.blocked, [])
        | .ok s1 =>
            if o.getTimeoutOk then
              if o.waitOk then
                match dispatch o s1 (w.completions.headD []) with
                | .err e => some (.errored e, [.wait (loopTimeout (w.timeouts.headD none))])
                | .panicked => some (.panicked, [.wait (loopTimeout (w.timeouts.headD none))])
                | .ok (s2, evs) =>
                    match run_loop o fuel { agent := s2, queue := [], connected := w.connected,
                                            timeouts := w.timeouts.tail,
                                            completions := w.completions.tail } with
                    | none => none
                    | some (out, trace) =>
                        some (out, .wait (loopTimeout (w.timeouts.headD none)) :: (evs ++ trace))
              else some (.errored (.curl 0), [.wait (loopTimeout (w.timeouts.headD none))])
            else some (.errored (.curl 0), [])

/-- Timeouts of the `.wait` events in a trace. -/
def waitTimeouts (trace : List Event) : List Nat :=
  trace.filterMap fun e =>
    match e with
    | .wait t => some t
    | _ => none

/-- Recognizer for a completion callback aimed at token `t`. -/
def isCompletedFor (t : Nat) : Event → Bool
  | .completed u _ => u == t
  | _ => false

/-- Recognizer for a failure callback aimed at token `t`. -/
def isFailedFor (t : Nat) : Event → Bool
  | .failed u _ _ => u == t
  | _ => false

/-- Number of completion callbacks fired for token `t` in a trace. -/
def completedCount (evs : List Event) (t : Nat) : Nat :=
  (evs.filter (isCompletedFor t)).length

/-- Number of failure callbacks fired for token `t` in a trace. -/
def failedCount (evs : List Event) (t : Nat) : Nat :=
  (evs.filter (isFailedFor t)).length

/-- Number of handler callbacks of either kind fired for token `t`. -/
def callbackCount (evs : List Event) (t : Nat) : Nat :=
  completedCount evs t + failedCount evs t

theorem vacantKey_not_mem (l : List (Nat × Nat)) : vacantKey l ∉ slabKeys l := by
  have hex : ∃ n, n ∈ List.range (l.length + 1) ∧ n ∉ slabKeys l := by
    by_contra hall
    push_neg at hall
    have hsub : List.range (l.length + 1) ⊆ slabKeys l := fun n hn => hall n hn
    have h1 : (List.range (l.length + 1)).length ≤ (slabKeys l).length :=
      (List.subperm_of_subset (List.nodup_range _) hsub).length_le
    simp only [List.length_range, slabKeys, List.length_map] at h1
    omega
  obtain ⟨n, hn, hmem⟩ := hex
  have hin : n ∈ (List.range (l.length + 1)).filter (fun n => decide (n ∉ slabKeys l)) :=
    List.mem_filter.mpr ⟨hn, by simpa using hmem⟩
  cases hfil : (List.range (l.length + 1)).filter (fun n => decide (n ∉ slabKeys l)) with
  | nil => rw [hfil] at hin; cases hin
  | cons a as =>
      have ha : a ∈ (List.range (l.length + 1)).filter (fun n => decide (n ∉ slabKeys l)) := by
        rw [hfil]; exact List.mem_cons_self _ _
      have hprop := (List.mem_filter.mp ha).2
      have : vacantKey l = a := by unfold vacantKey; rw [hfil]; rfl
      rw [this]
      simpa using hprop

theorem slabGet_eq_none_iff (l : List (Nat × Nat)) (t : Nat) :
    slabGet l t = none ↔ t ∉ slabKeys l := by
  induction l with
  | nil => simp [slabGet, slabKeys]
  | cons e tl ih =>
      rw [show slabKeys (e :: tl) = e.1 :: slabKeys tl from rfl]
      by_cases h : e.1 = t
      · simp [slabGet, h]
      · simp only [slabGet, h, if_false, List.mem_cons]
        rw [ih]
        constructor
        · intro hn hor
          cases hor with
          | inl ht => exact h ht.symm
          | inr hm => exact hn hm
        · intro hn hm
          exact hn (Or.inr hm)

theorem mem_slabKeys_exists_get (l : List (Nat × Nat)) (t : Nat) :
    t ∈ slabKeys l ↔ ∃ v, slabGet l t = some v := by
  constructor
  · intro hmem
    cases hg : slabGet l t with
    | none => exact absurd hmem ((slabGet_eq_none_iff l t).mp hg)
    | some v => exact ⟨v, rfl⟩
  · rintro ⟨v, hv⟩
    by_contra hmem
    rw [(slabGet_eq_none_iff l t).mpr hmem] at hv
    cases hv

theorem slabKeys_slabRemove (l : List (Nat × Nat)) (t : Nat) :
    slabKeys (slabRemove l t) = (slabKeys l).filter (fun k => decide (k ≠ t)) := by
  induction l with
  | nil => rfl
  | cons e tl ih =>
      by_cases h : e.1 = t
      · simp [slabRemove, slabKeys, List.filter, h] at ih ⊢
        exact ih
      · simp [slabRemove, slabKeys, List.filter, h] at ih ⊢
        exact ih

theorem mem_slabRemove (l : List (Nat × Nat)) (t u : Nat) :
    u ∈ slabKeys (slabRemove l t) ↔ u ∈ slabKeys l ∧ u ≠ t := by
  rw [slabKeys_slabRemove]
  simp [List.mem_filter]

theorem nodup_slabRemove (l : List (Nat × Nat)) (t : Nat)
    (h : (slabKeys l).Nodup) : (slabKeys (slabRemove l t)).Nodup := by
  rw [slabKeys_slabRemove]
  exact h.filter _

theorem waitTimeouts_append (a b : List Event) :
    waitTimeouts (a ++ b) = waitTimeouts a ++ waitTimeouts b := by
  simp [waitTimeouts, List.filterMap_append]

/-- Callback event produced by resolving one pair. -/
def resolutionEvent (t reqId : Nat) : EngineResult → Event
  | .ok => .completed t reqId
  | .err c => .failed t reqId c

theorem resolve_one_ok (o : Oracle) (s : AgentState) (p : Nat × EngineResult)
    (s' : AgentState) (evs : List Event)
    (h : resolve_one o s p = .ok (s', evs)) :
    ∃ reqId, slabGet s.requests p.1 = some reqId ∧ o.remove2Ok = true ∧
      s'.requests = slabRemove s.requests p.1 ∧
      s'.multiRegs = s.multiRegs.filter (fun k => decide (k ≠ p.1)) ∧
      s'.closeRequested = s.closeRequested ∧
      evs = [Event.engineRemove p.1, resolutionEvent p.1 reqId p.2] := by
  obtain ⟨t, r⟩ := p
  cases r with
  | ok =>
      simp only [resolve_one, complete_request] at h
      cases hget : slabGet s.requests t with
      | none => rw [hget] at h; cases h
      | some reqId =>
          rw [hget] at h
          by_cases hrm : o.remove2Ok
          · simp only [hrm, if_true] at h
            cases h
            exact ⟨reqId, rfl, hrm, rfl, rfl, rfl, rfl⟩
          · simp [hrm] at h
  | err c =>
      simp only [resolve_one, fail_request] at h
      cases hget : slabGet s.requests t with
      | none => rw [hget] at h; cases h
      | some reqId =>
          rw [hget] at h
          by_cases hrm : o.remove2Ok
          · simp only [hrm, if_true] at h
            cases h
            exact ⟨reqId, rfl, hrm, rfl, rfl, rfl, rfl⟩
          · simp [hrm] at h

theorem completedCount_append (a b : List Event) (t : Nat) :
    completedCount (a ++ b) t = completedCount a t + completedCount b t := by
  simp [completedCount, List.filter_append]

theorem failedCount_append (a b : List Event) (t : Nat) :
    failedCount (a ++ b) t = failedCount a t + failedCount b t := by
  simp [failedCount, List.filter_append]

theorem callbackCount_append (a b : List Event) (t : Nat) :
    callbackCount (a ++ b) t = callbackCount a t + callbackCount b t := by
  simp [callbackCount, completedCount_append, failedCount_append]
  omega

theorem callbackCount_step_ne (t u reqId : Nat) (r : EngineResult) (h : u ≠ t) :
    callbackCount [Event.engineRemove u, resolutionEvent u reqId r] t = 0 := by
  have hbe : (u == t) = false := by simpa using h
  cases r <;>
    simp [callbackCount, completedCount, failedCount, isCompletedFor, isFailedFor,
          resolutionEvent, List.filter, hbe]

theorem dispatch_results_no_wait (o : Oracle) :
    ∀ (res : List (Nat × EngineResult)) (s s' : AgentState) (evs : List Event),
    dispatch_results o s res = .ok (s', evs) → waitTimeouts evs = [] := by
  intro res
  induction res with
  | nil =>
      intro s s' evs h
      simp only [dispatch_results] at h
      cases h
      rfl
  | cons p rest ih =>
      intro s s' evs h
      obtain ⟨t, r⟩ := p
      simp only [dispatch_results] at h
      split at h
      next s1 evs1 hstep =>
        split at h
        next s2 evs2 hrec =>
          cases h
          obtain ⟨reqId, _, _, _, _, _, hevs⟩ := resolve_one_ok o s (t, r) s1 evs1 hstep
          subst hevs
          rw [waitTimeouts_append, ih _ _ _ hrec]
          cases r <;> rfl
        next e hrec => cases h
        next hrec => cases h
      next e hstep => cases h
      next hstep => cases h

theorem dispatch_results_subset (o : Oracle) :
    ∀ (res : List (Nat × EngineResult)) (s s' : AgentState) (evs : List Event),
    dispatch_results o s res = .ok (s', evs) →
    (∀ u, u ∈ slabKeys s'.requests → u ∈ slabKeys s.requests) ∧
    (∀ u, u ∈ s'.multiRegs → u ∈ s.multiRegs) := by
  intro res
  induction res with
  | nil =>
      intro s s' evs h
      simp only [dispatch_results] at h
      cases h
      exact ⟨fun u hu => hu, fun u hu => hu⟩
  | cons p rest ih =>
      intro s s' evs h
      obtain ⟨t, r⟩ := p
      simp only [dispatch_results] at h
      split at h
      next s1 evs1 hstep =>
        split at h
        next s2 evs2 hrec =>
          cases h
          obtain ⟨reqId, hget, hrm, hreq, hmrg, hcl, hevs⟩ :=
            resolve_one_ok o s (t, r) s1 evs1 hstep
          obtain ⟨ihA, ihB⟩ := ih _ _ _ hrec
          constructor
          · intro u hu
            have h1 := ihA u hu
            rw [hreq] at h1
            exact ((mem_slabRemove _ _ _).mp h1).1
          · intro u hu
            have h1 := ihB u hu
            rw [hmrg] at h1
            exact (List.mem_filter.mp h1).1
        next e hrec => cases h
        next hrec => cases h
      next e hstep => cases h
      next hstep => cases h

theorem dispatch_results_callbacks_absent (o : Oracle) :
    ∀ (res : List (Nat × EngineResult)) (s s' : AgentState) (evs : List Event),
    dispatch_results o s res = .ok (s', evs) →
    ∀ t, t ∉ res.map Prod.fst → callbackCount evs t = 0 := by
  intro res
  induction res with
  | nil =>
      intro s s' evs h t _
      simp only [dispatch_results] at h
      cases h
      rfl
  | cons p rest ih =>
      intro s s' evs h t ht
      obtain ⟨u, r⟩ := p
      simp only [List.map_cons, List.mem_cons] at ht
      push_neg at ht
      simp only [dispatch_results] at h
      split at h
      next s1 evs1 hstep =>
        split at h
        next s2 evs2 hrec =>
          cases h
          obtain ⟨reqId, _, _, _, _, _, hevs⟩ := resolve_one_ok o s (u, r) s1 evs1 hstep
          subst hevs
          rw [callbackCount_append, ih _ _ _ hrec t ht.2,
              callbackCount_step_ne t u reqId r (fun hh => ht.1 hh.symm)]
        next e hrec => cases h
        next hrec => cases h
      next e hstep => cases h
      next hstep => cases h

/-- Oracle in which every curl call succeeds. -/
def oracleAll : Oracle := ⟨true, true, true, true, true, true, true⟩

/-- Agent state with an empty token table. -/
def sIdle : AgentState := { requests := [], multiRegs := [], closeRequested := false }

/-- Agent state holding one active transfer at token 3. -/
def sOne : AgentState := { requests := [(3, 9)], multiRegs := [3], closeRequested := false }

/-- Claim C3: every handle operation (`begin_execute`, `cancel_request`,
`unpause_write`) checks the terminated flag first: if it is set, the
operation returns `Error::Internal` and neither enqueues a message nor
pings the wake notifier; if it is clear, the message is enqueued, one
wake ping is sent, and `Ok` is returned. -/
theorem handle_ops_gate_on_terminated (ch : ChannelState) (req : CurlRequest) (t u : Nat) :
    (begin_execute true ch req).2 = (Except.error Error.internal, ch) ∧
    cancel_request true ch t = (Except.error Error.internal, ch) ∧
    unpause_write true ch u = (Except.error Error.internal, ch) ∧
    (begin_execute false ch req).2 =
      (Except.ok (), { queue := ch.queue ++ [Message.beginRequest req.reqId],
                       pings := ch.pings + 1 }) ∧
    cancel_request false ch t =
      (Except.ok (), { queue := ch.queue ++ [Message.cancel t], pings := ch.pings + 1 }) ∧
    unpause_write false ch u =
      (Except.ok (), { queue := ch.queue ++ [Message.unpauseWrite u], pings := ch.pings + 1 }) := by
  refine ⟨rfl, rfl, rfl, rfl, rfl, rfl⟩

/-- Claim C10: `begin_execute` associates the request with the handle
(`set_agent`) before the terminated flag is checked, so the request is
bound even on the `Internal` error path, although the channel state is
untouched. -/
theorem begin_execute_binds_request_even_on_error (ch : ChannelState) (req : CurlRequest)
    (b : Bool) :
    (begin_execute b ch req).1 = { req with agentBound := true } ∧
    (begin_execute true ch req).1.agentBound = true ∧
    (begin_execute true ch req).2 = (Except.error Error.internal, ch) := by
  refine ⟨rfl, rfl, rfl⟩

/-- Claim C8: handling `Close` sets `close_requested` and changes
nothing else: the token table, the engine registrations and the event
trace are untouched. -/
theorem close_message_frame (o : Oracle) (s s' : AgentState) (evs : List Event)
    (h : handle_message o s .close = .ok (s', evs)) :
    s'.closeRequested = true ∧ s'.requests = s.requests ∧ s'.multiRegs = s.multiRegs ∧
    evs = [] := by
  simp only [handle_message] at h
  cases h
  exact ⟨rfl, rfl, rfl, rfl⟩

/-- Witness for C8 at a concrete one-transfer state. -/
theorem close_message_frame_witness :
    ({ requests := [(3, 9)], multiRegs := [3], closeRequested := true } : AgentState).closeRequested = true ∧
    ({ requests := [(3, 9)], multiRegs := [3], closeRequested := true } : AgentState).requests = sOne.requests ∧
    ({ requests := [(3, 9)], multiRegs := [3], closeRequested := true } : AgentState).multiRegs = sOne.multiRegs ∧
    ([] : List Event) = [] :=
  close_message_frame oracleAll sOne
    { requests := [(3, 9)], multiRegs := [3], closeRequested := true } [] rfl

/-- Claim C7: cancelling or unpausing a token that is absent from the
token table is a no-op for the agent state (table, engine registrations
and close flag unchanged), never errors for any oracle, and emits
nothing but a warning in the `UnpauseWrite` case. -/
theorem absent_token_ops_are_noops (o : Oracle) (s : AgentState) (t : Nat)
    (h : t ∉ slabKeys s.requests) :
    handle_message o s (.cancel t) = .ok (s, []) ∧
    handle_message o s (.unpauseWrite t) = .ok (s, [.warnUnknownToken t]) := by
  have hget : slabGet s.requests t = none := (slabGet_eq_none_iff _ _).mpr h
  constructor
  · simp [handle_message, h]
  · simp [handle_message, hget]

/-- Witness for C7 at a concrete state and absent token. -/
theorem absent_token_ops_are_noops_witness :
    handle_message oracleAll sOne (.cancel 5) = .ok (sOne, []) ∧
    handle_message oracleAll sOne (.unpauseWrite 5) = .ok (sOne, [.warnUnknownToken 5]) :=
  absent_token_ops_are_noops oracleAll sOne 5 (by decide)

/-- Claim C6: the message drain blocks exactly when the token table is
empty.  A `.blocked` result can only happen with an empty table and a
live sender; with a nonempty table and no pending message the drain
returns immediately (`try_recv` stops at the first empty poll); with an
empty table, no pending message and a live sender the drain blocks
rather than spin. -/
theorem poll_messages_blocking_discipline :
    (∀ (o : Oracle) (conn : Bool) (q : List Message) (s s' : AgentState),
      poll_messages o conn s q = .blocked s' →
      s'.requests.isEmpty = true ∧ conn = true) ∧
    (∀ (o : Oracle) (conn : Bool) (s : AgentState),
      s.requests.isEmpty = false → poll_messages o conn s [] = .ok s) ∧
    (∀ (o : Oracle) (s : AgentState),
      s.requests.isEmpty = true → poll_messages o true s [] = .blocked s) := by
  refine ⟨?_, ?_, ?_⟩
  · intro o conn q
    induction q with
    | nil =>
        intro s s' h
        simp only [poll_messages] at h
        by_cases he : s.requests.isEmpty = true
        · rw [if_pos he] at h
          cases hc : conn with
          | false => rw [hc, if_neg (by simp)] at h; cases h
          | true =>
              rw [hc, if_pos rfl] at h
              cases h
              exact ⟨he, rfl⟩
        · rw [if_neg he] at h
          cases h
    | cons m rest ih =>
        intro s s' h
        simp only [poll_messages] at h
        split at h
        next s1 evs1 hm => exact ih s1 s' h
        next e hm => cases h
  · intro o conn s he
    simp [poll_messages, he]
  · intro o s he
    simp [poll_messages, he]

/-- Witness for C6: with one active transfer the drain returns at once;
with an empty table and a live sender it blocks. -/
theorem poll_messages_blocking_discipline_witness :
    poll_messages oracleAll true sOne [] = .ok sOne ∧
    poll_messages oracleAll true sIdle [] = .blocked sIdle ∧
    (sIdle.requests.isEmpty = true ∧ true = true) :=
  ⟨poll_messages_blocking_discipline.2.1 oracleAll true sOne (by decide),
   poll_messages_blocking_discipline.2.2 oracleAll sIdle (by decide),
   poll_messages_blocking_discipline.1 oracleAll true [] sIdle sIdle (by decide)⟩

/-- Claim C9: `complete_request` and `fail_request` remove the slab
entry unconditionally and panic when the token is vacant; the absent
branch is unreachable whenever every `(token, result)` pair yielded by
the engine names a distinct token currently in the table. -/
theorem completion_requires_token_in_table :
    (∀ (o : Oracle) (s : AgentState) (t c : Nat), t ∉ slabKeys s.requests →
      complete_request o s t = .panicked ∧ fail_request o s t c = .panicked) ∧
    (∀ (o : Oracle) (s : AgentState) (t c : Nat), t ∈ slabKeys s.requests →
      complete_request o s t ≠ .panicked ∧ fail_request o s t c ≠ .panicked) ∧
    (∀ (o : Oracle) (res : List (Nat × EngineResult)) (s : AgentState),
      (res.map Prod.fst).Nodup → (∀ p ∈ res, p.1 ∈ slabKeys s.requests) →
      dispatch_results o s res ≠ .panicked) := by
  refine ⟨?_, ?_, ?_⟩
  · intro o s t c h
    have hget : slabGet s.requests t = none := (slabGet_eq_none_iff _ _).mpr h
    exact ⟨by simp [complete_request, hget], by simp [fail_request, hget]⟩
  · intro o s t c h
    obtain ⟨v, hget⟩ := (mem_slabKeys_exists_get _ _).mp h
    constructor
    · simp only [complete_request, hget]
      split <;> simp
    · simp only [fail_request, hget]
      split <;> simp
  · intro o res
    induction res with
    | nil =>
        intro s _ _
        simp [dispatch_results]
    | cons p rest ih =>
        intro s hnd hpres hcontra
        obtain ⟨u, r⟩ := p
        simp only [List.map_cons, List.nodup_cons] at hnd
        have hu : u ∈ slabKeys s.requests := hpres (u, r) (List.mem_cons_self _ _)
        obtain ⟨v, hget⟩ := (mem_slabKeys_exists_get _ _).mp hu
        simp only [dispatch_results] at hcontra
        split at hcontra
        next s1 evs1 hstep =>
          obtain ⟨reqId, _, _, hreq, _, _, _⟩ := resolve_one_ok o s (u, r) s1 evs1 hstep
          have hpres1 : ∀ p ∈ rest, p.1 ∈ slabKeys s1.requests := by
            intro p hp
            have hmem : p.1 ∈ slabKeys s.requests := hpres p (List.mem_cons_of_mem _ hp)
            have hne : p.1 ≠ u := by
              intro hh
              exact hnd.1 (hh ▸ List.mem_map_of_mem Prod.fst hp)
            rw [hreq]
            exact (mem_slabRemove _ _ _).mpr ⟨hmem, hne⟩
          have hrec := ih s1 hnd.2 hpres1
          split at hcontra
          next hr => cases hcontra
          next hr => cases hcontra
          next hr => exact hrec hr
        next e hstep => cases hcontra
        next hstep =>
          cases r with
          | ok =>
              simp only [resolve_one, complete_request, hget] at hstep
              split at hstep <;> cases hstep
          | err c =>
              simp only [resolve_one, fail_request, hget] at hstep
              split at hstep <;> cases hstep

/-- Witness for C9 at concrete inputs: token 5 is absent (both resolvers
panic), token 3 is present (neither panics), and a well-formed result
list dispatches without panicking. -/
theorem completion_requires_token_in_table_witness :
    (complete_request oracleAll sOne 5 = .panicked ∧
     fail_request oracleAll sOne 5 7 = .panicked) ∧
    (complete_request oracleAll sOne 3 ≠ .panicked ∧
     fail_request oracleAll sOne 3 7 ≠ .panicked) ∧
    dispatch_results oracleAll sOne [(3, .ok)] ≠ .panicked :=
  ⟨completion_requires_token_in_table.1 oracleAll sOne 5 7 (by decide),
   completion_requires_token_in_table.2.1 oracleAll sOne 3 7 (by decide),
   completion_requires_token_in_table.2.2 oracleAll [(3, .ok)] sOne (by decide)
     (by intro p hp; simp at hp; subst hp; decide)⟩

theorem handle_message_nodup (o : Oracle) (s : AgentState) (m : Message)
    (s' : AgentState) (evs : List Event)
    (hnd : (slabKeys s.requests).Nodup)
    (h : handle_message o s m = .ok (s', evs)) :
    (slabKeys s'.requests).Nodup := by
  cases m with
  | close =>
      simp only [handle_message] at h
      cases h
      exact hnd
  | beginRequest reqId =>
      simp only [handle_message] at h
      split at h
      · split at h
        · cases h
          exact List.nodup_cons.mpr ⟨vacantKey_not_mem _, hnd⟩
        · cases h
      · cases h
  | cancel t =>
      simp only [handle_message] at h
      split at h
      · split at h
        · cases h
          exact nodup_slabRemove _ _ hnd
        · cases h
      · cases h
        exact hnd
  | unpauseWrite t =>
      simp only [handle_message] at h
      split at h
      · split at h <;> cases h
        exact hnd
      · cases h
        exact hnd

theorem dispatch_results_nodup (o : Oracle) :
    ∀ (res : List (Nat × EngineResult)) (s s' : AgentState) (evs : List Event),
    (slabKeys s.requests).Nodup → dispatch_results o s res = .ok (s', evs) →
    (slabKeys s'.requests).Nodup := by
  intro res
  induction res with
  | nil =>
      intro s s' evs hnd h
      simp only [dispatch_results] at h
      cases h
      exact hnd
  | cons p rest ih =>
      intro s s' evs hnd h
      simp only [dispatch_results] at h
      split at h
      next s1 evs1 hstep =>
        split at h
        next s2 evs2 hrec =>
          cases h
          obtain ⟨reqId, _, _, hreq, _, _, _⟩ := resolve_one_ok o s p s1 evs1 hstep
          exact ih s1 _ _ (hreq ▸ nodup_slabRemove _ _ hnd) hrec
        next e hrec => cases h
        next hrec => cases h
      next e hstep => cases h
      next hstep => cases h

theorem poll_messages_nodup (o : Oracle) (conn : Bool) :
    ∀ (q : List Message) (s s' : AgentState),
    (slabKeys s.requests).Nodup → poll_messages o conn s q = .ok s' →
    (slabKeys s'.requests).Nodup := by
  intro q
  induction q with
  | nil =>
      intro s s' hnd h
      simp only [poll_messages] at h
      split at h
      · split at h
        · cases h
        · cases h
          exact hnd
      · cases h
        exact hnd
  | cons m rest ih =>
      intro s s' hnd h
      simp only [poll_messages] at h
      split at h
      next s1 evs1 hm => exact ih s1 s' (handle_message_nodup o s m s1 evs1 hnd hm) h
      next e hm => cases h

/-- Claim C5: a fresh token from `vacant_entry` is never one that is
currently in use, `BeginRequest` inserts exactly that fresh token, and
every state transformer of the agent (message handling, completion
dispatch, message draining) preserves distinctness of the tokens in the
table — so no token is ever assigned to two active transfers, and a
token is handed out again only after its entry has been removed. -/
theorem token_table_uniqueness :
    (∀ (l : List (Nat × Nat)), vacantKey l ∉ slabKeys l) ∧
    (∀ (o : Oracle) (s : AgentState) (reqId : Nat) (s' : AgentState) (evs : List Event),
      handle_message o s (.beginRequest reqId) = .ok (s', evs) →
      vacantKey s.requests ∉ slabKeys s.requests ∧
      s'.requests = (vacantKey s.requests, reqId) :: s.requests) ∧
    (∀ (o : Oracle) (s : AgentState) (m : Message) (s' : AgentState) (evs : List Event),
      (slabKeys s.requests).Nodup → handle_message o s m = .ok (s', evs) →
      (slabKeys s'.requests).Nodup) ∧
    (∀ (o : Oracle) (res : List (Nat × EngineResult)) (s s' : AgentState) (evs : List Event),
      (slabKeys s.requests).Nodup → dispatch_results o s res = .ok (s', evs) →
      (slabKeys s'.requests).Nodup) ∧
    (∀ (o : Oracle) (conn : Bool) (q : List Message) (s s' : AgentState),
      (slabKeys s.requests).Nodup → poll_messages o conn s q = .ok s' →
      (slabKeys s'.requests).Nodup) := by
  refine ⟨vacantKey_not_mem, ?_, handle_message_nodup, ?_, ?_⟩
  · intro o s reqId s' evs h
    simp only [handle_message] at h
    split at h
    · split at h
      · cases h
        exact ⟨vacantKey_not_mem _, rfl⟩
      · cases h
    · cases h
  · intro o res s s' evs hnd h
    exact dispatch_results_nodup o res s s' evs hnd h
  · intro o conn q s s' hnd h
    exact poll_messages_nodup o conn q s s' hnd h

/-- Witness for C5 at concrete inputs: inserting into the one-transfer
table uses the fresh token 0 and keeps the keys distinct. -/
theorem token_table_uniqueness_witness :
    (vacantKey sOne.requests ∉ slabKeys sOne.requests ∧
     ({ requests := [(0, 4), (3, 9)], multiRegs := [0, 3], closeRequested := false } :
        AgentState).requests = (vacantKey sOne.requests, 4) :: sOne.requests) ∧
    (slabKeys ([(0, 4), (3, 9)] : List (Nat × Nat))).Nodup :=
  ⟨token_table_uniqueness.2.1 oracleAll sOne 4
      { requests := [(0, 4), (3, 9)], multiRegs := [0, 3], closeRequested := false }
      [.engineAdd 0] rfl,
   token_table_uniqueness.2.2.1 oracleAll sOne (.beginRequest 4)
      { requests := [(0, 4), (3, 9)], multiRegs := [0, 3], closeRequested := false }
      [.engineAdd 0] (by decide) rfl⟩

theorem callbackCount_zero_parts (evs : List Event) (t : Nat)
    (h : callbackCount evs t = 0) :
    completedCount evs t = 0 ∧ failedCount evs t = 0 := by
  unfold callbackCount at h
  omega

theorem step_counts_ok (u reqId : Nat) :
    completedCount [Event.engineRemove u, resolutionEvent u reqId .ok] u = 1 ∧
    failedCount [Event.engineRemove u, resolutionEvent u reqId .ok] u = 0 := by
  simp [completedCount, failedCount, resolutionEvent, isCompletedFor, isFailedFor, List.filter]

theorem step_counts_err (u reqId c : Nat) :
    failedCount [Event.engineRemove u, resolutionEvent u reqId (.err c)] u = 1 ∧
    completedCount [Event.engineRemove u, resolutionEvent u reqId (.err c)] u = 0 := by
  simp [completedCount, failedCount, resolutionEvent, isCompletedFor, isFailedFor, List.filter]

theorem dispatch_results_per_token (o : Oracle) :
    ∀ (res : List (Nat × EngineResult)) (s s' : AgentState) (evs : List Event),
    (res.map Prod.fst).Nodup →
    (∀ p ∈ res, p.1 ∈ slabKeys s.requests) →
    dispatch_results o s res = .ok (s', evs) →
    (∀ t, (t, EngineResult.ok) ∈ res → completedCount evs t = 1 ∧ failedCount evs t = 0) ∧
    (∀ t c, (t, EngineResult.err c) ∈ res → failedCount evs t = 1 ∧ completedCount evs t = 0) ∧
    (∀ p ∈ res, p.1 ∉ slabKeys s'.requests ∧ p.1 ∉ s'.multiRegs ∧
      Event.engineRemove p.1 ∈ evs) := by
  intro res
  induction res with
  | nil =>
      intro s s' evs _ _ h
      simp only [dispatch_results] at h
      cases h
      refine ⟨?_, ?_, ?_⟩
      · intro t ht
        cases ht
      · intro t c ht
        cases ht
      · intro p hp
        cases hp
  | cons p rest ih =>
      intro s s' evs hnd hpres h
      obtain ⟨u, r⟩ := p
      simp only [List.map_cons, List.nodup_cons] at hnd
      simp only [dispatch_results] at h
      split at h
      next s1 evs1 hstep =>
        split at h
        next s2 evs2 hrec =>
          cases h
          obtain ⟨reqId, hget, hrm, hreq, hmrg, hcl, hevs⟩ :=
            resolve_one_ok o s (u, r) s1 evs1 hstep
          subst hevs
          have hpres1 : ∀ p ∈ rest, p.1 ∈ slabKeys s1.requests := by
            intro p hp
            have hmem : p.1 ∈ slabKeys s.requests := hpres p (List.mem_cons_of_mem _ hp)
            have hne : p.1 ≠ u := fun hh => hnd.1 (hh ▸ List.mem_map_of_mem Prod.fst hp)
            rw [hreq]
            exact (mem_slabRemove _ _ _).mpr ⟨hmem, hne⟩
          obtain ⟨ih1, ih2, ih3⟩ := ih s1 _ _ hnd.2 hpres1 hrec
          have habs : callbackCount evs2 u = 0 :=
            dispatch_results_callbacks_absent o rest s1 _ _ hrec u hnd.1
          obtain ⟨habsC, habsF⟩ := callbackCount_zero_parts evs2 u habs
          refine ⟨?_, ?_, ?_⟩
          · intro t ht
            rcases List.mem_cons.mp ht with hh | hh
            · have h1 : t = u := congrArg Prod.fst hh
              have h2 : r = EngineResult.ok := (congrArg Prod.snd hh).symm
              subst h2
              rw [h1, completedCount_append, failedCount_append, habsC, habsF,
                  (step_counts_ok u reqId).1, (step_counts_ok u reqId).2]
              exact ⟨rfl, rfl⟩
            · have hne : t ≠ u := fun hh2 => hnd.1 (hh2 ▸ List.mem_map_of_mem Prod.fst hh)
              obtain ⟨hz1, hz2⟩ := callbackCount_zero_parts _ _
                (callbackCount_step_ne t u reqId r (fun x => hne x.symm))
              rw [completedCount_append, failedCount_append, hz1, hz2]
              simpa using ih1 t hh
          · intro t c ht
            rcases List.mem_cons.mp ht with hh | hh
            · have h1 : t = u := congrArg Prod.fst hh
              have h2 : r = EngineResult.err c := (congrArg Prod.snd hh).symm
              subst h2
              rw [h1, completedCount_append, failedCount_append, habsC, habsF,
                  (step_counts_err u reqId c).1, (step_counts_err u reqId c).2]
              exact ⟨rfl, rfl⟩
            · have hne : t ≠ u := fun hh2 => hnd.1 (hh2 ▸ List.mem_map_of_mem Prod.fst hh)
              obtain ⟨hz1, hz2⟩ := callbackCount_zero_parts _ _
                (callbackCount_step_ne t u reqId r (fun x => hne x.symm))
              rw [completedCount_append, failedCount_append, hz1, hz2]
              simpa using ih2 t c hh
          · intro p hp
            obtain ⟨hsub1, hsub2⟩ := dispatch_results_subset o rest s1 _ _ hrec
            rcases List.mem_cons.mp hp with hh | hh
            · subst hh
              refine ⟨?_, ?_, List.mem_append_left _ (List.mem_cons_self _ _)⟩
              · intro hc
                have h1 := hsub1 _ hc
                rw [hreq] at h1
                exact ((mem_slabRemove _ _ _).mp h1).2 rfl
              · intro hc
                have h1 := hsub2 _ hc
                rw [hmrg] at h1
                have h2 := (List.mem_filter.mp h1).2
                simp at h2
            · obtain ⟨hA, hB, hC⟩ := ih3 p hh
              exact ⟨hA, hB, List.mem_append_right _ hC⟩
        next e hrec => cases h
        next hrec => cases h
      next e hstep => cases h
      next hstep => cases h

/-- Claim C4: for every `(token, result)` pair yielded by the progress
step (distinct tokens, all present in the table), exactly one handler
callback fires — the completion callback on success, the failure
callback on an engine error — and the token is removed from the table
and deregistered from the engine; a token absent from the table when
the step runs (for example one removed earlier by `Cancel`) receives
neither callback. -/
theorem dispatch_fires_exactly_one_callback
    (o : Oracle) (s : AgentState) (res : List (Nat × EngineResult))
    (s' : AgentState) (evs : List Event)
    (hnd : (res.map Prod.fst).Nodup)
    (hpres : ∀ p ∈ res, p.1 ∈ slabKeys s.requests)
    (h : dispatch_results o s res = .ok (s', evs)) :
    (∀ t, (t, EngineResult.ok) ∈ res →
      completedCount evs t = 1 ∧ failedCount evs t = 0) ∧
    (∀ t c, (t, EngineResult.err c) ∈ res →
      failedCount evs t = 1 ∧ completedCount evs t = 0) ∧
    (∀ p ∈ res, p.1 ∉ slabKeys s'.requests ∧ p.1 ∉ s'.multiRegs ∧
      Event.engineRemove p.1 ∈ evs) ∧
    (∀ t, t ∉ slabKeys s.requests → callbackCount evs t = 0) := by
  obtain ⟨h1, h2, h3⟩ := dispatch_results_per_token o res s s' evs hnd hpres h
  refine ⟨h1, h2, h3, ?_⟩
  intro t ht
  refine dispatch_results_callbacks_absent o res s s' evs h t ?_
  intro hmem
  obtain ⟨p, hp, hp1⟩ := List.mem_map.mp hmem
  exact ht (hp1 ▸ hpres p hp)

/-- Witness for C4: token 0 succeeds and token 3 fails; each gets
exactly its own callback, both leave the table, and absent token 7 gets
none. -/
theorem dispatch_fires_exactly_one_callback_witness :
    (completedCount [Event.engineRemove 0, Event.completed 0 4,
                     Event.engineRemove 3, Event.failed 3 9 42] 0 = 1 ∧
     failedCount [Event.engineRemove 0, Event.completed 0 4,
                  Event.engineRemove 3, Event.failed 3 9 42] 0 = 0) ∧
    callbackCount [Event.engineRemove 0, Event.completed 0 4,
                   Event.engineRemove 3, Event.failed 3 9 42] 7 = 0 :=
  ⟨(dispatch_fires_exactly_one_callback oracleAll
      { requests := [(0, 4), (3, 9)], multiRegs := [0, 3], closeRequested := false }
      [(0, .ok), (3, .err 42)]
      { requests := [], multiRegs := [], closeRequested := false }
      [Event.engineRemove 0, Event.completed 0 4, Event.engineRemove 3, Event.failed 3 9 42]
      (by decide) (by intro p hp; fin_cases hp <;> decide) rfl).1 0 (by decide),
   (dispatch_fires_exactly_one_callback oracleAll
      { requests := [(0, 4), (3, 9)], multiRegs := [0, 3], closeRequested := false }
      [(0, .ok), (3, .err 42)]
      { requests := [], multiRegs := [], closeRequested := false }
      [Event.engineRemove 0, Event.completed 0 4, Event.engineRemove 3, Event.failed 3 9 42]
      (by decide) (by intro p hp; fin_cases hp <;> decide) rfl).2.2.2 7 (by decide)⟩

theorem handle_message_close_flag (o : Oracle) (s : AgentState) (m : Message)
    (s' : AgentState) (evs : List Event)
    (h : handle_message o s m = .ok (s', evs)) (hc : s'.closeRequested = true) :
    s.closeRequested = true ∨ m = .close := by
  cases m with
  | close => exact Or.inr rfl
  | beginRequest reqId =>
      simp only [handle_message] at h
      split at h
      · split at h
        · cases h
          exact Or.inl hc
        · cases h
      · cases h
  | cancel t =>
      simp only [handle_message] at h
      split at h
      · split at h
        · cases h
          exact Or.inl hc
        · cases h
      · cases h
        exact Or.inl hc
  | unpauseWrite t =>
      simp only [handle_message] at h
      split at h
      · split at h <;> cases h
        exact Or.inl hc
      · cases h
        exact Or.inl hc

theorem poll_messages_close_flag (o : Oracle) :
    ∀ (q : List Message) (s s' : AgentState),
    poll_messages o true s q = .ok s' → s'.closeRequested = true →
    s.closeRequested = true ∨ Message.close ∈ q := by
  intro q
  induction q with
  | nil =>
      intro s s' h hc
      simp only [poll_messages] at h
      split at h
      · split at h
        next => cases h
        next hfalse => simp at hfalse
      · cases h
        exact Or.inl hc
  | cons m rest ih =>
      intro s s' h hc
      simp only [poll_messages] at h
      split at h
      next s1 evs1 hm =>
        rcases ih s1 s' h hc with h1 | h1
        · rcases handle_message_close_flag o s m s1 evs1 hm h1 with h2 | h2
          · exact Or.inl h2
          · exact Or.inr (h2 ▸ List.mem_cons_self _ _)
        · exact Or.inr (List.mem_cons_of_mem _ h1)
      next e hm => cases h

theorem run_loop_terminated_flags (o : Oracle) :
    ∀ (fuel : Nat) (w : World) (s : AgentState) (trace : List Event),
    run_loop o fuel w = some (.terminated s, trace) →
    s.closeRequested = true ∧ s.requests.isEmpty = true := by
  intro fuel
  induction fuel with
  | zero =>
      intro w s trace h
      cases h
  | succ n ih =>
      intro w s trace h
      simp only [run_loop] at h
      by_cases hb : (w.agent.closeRequested && w.agent.requests.isEmpty) = true
      · rw [if_pos hb] at h
        cases h
        simpa using hb
      · rw [if_neg hb] at h
        split at h
        next e hpoll => simp at h
        next s0 hpoll => simp at h
        next s1 hpoll =>
          split at h
          · split at h
            · split at h
              next e hd => simp at h
              next hd => simp at h
              next s2 evs hd =>
                split at h
                next hrec => cases h
                next out tr hrec =>
                  injection h with h1
                  injection h1 with h2 h3
                  subst h2
                  exact ih _ s tr hrec
            · simp at h
          · simp at h

/-- Claim C2: the main loop exits normally (reaching `terminated`) iff
`close_requested` holds and the token table is empty: every normal exit
happens in exactly that state, a loop-head state satisfying both exits
immediately, and `close_requested` is only ever set by a `Close`
message or by the message channel reporting that all senders are gone. -/
theorem run_terminates_iff_closed_and_empty :
    (∀ (o : Oracle) (fuel : Nat) (w : World) (s : AgentState) (trace : List Event),
      run_loop o fuel w = some (.terminated s, trace) →
      s.closeRequested = true ∧ s.requests.isEmpty = true) ∧
    (∀ (o : Oracle) (fuel : Nat) (w : World),
      w.agent.closeRequested = true → w.agent.requests.isEmpty = true →
      run_loop o (fuel + 1) w = some (.terminated w.agent, [])) ∧
    (∀ (o : Oracle) (s : AgentState) (m : Message) (s' : AgentState) (evs : List Event),
      handle_message o s m = .ok (s', evs) → s'.closeRequested = true →
      s.closeRequested = true ∨ m = .close) ∧
    (∀ (o : Oracle) (q : List Message) (s s' : AgentState),
      poll_messages o true s q = .ok s' → s'.closeRequested = true →
      s.closeRequested = true ∨ Message.close ∈ q) := by
  refine ⟨?_, ?_, handle_message_close_flag, ?_⟩
  · intro o fuel w s trace h
    exact run_loop_terminated_flags o fuel w s trace h
  · intro o fuel w h1 h2
    simp [run_loop, h1, h2]
  · intro o q s s' h hc
    exact poll_messages_close_flag o q s s' h hc

/-- Witness for C2: a closed world with the close flag set and an empty
table terminates at once, and a `Close` message is the origin of the
flag in a concrete drain. -/
theorem run_terminates_iff_closed_and_empty_witness :
    run_loop oracleAll 1
      { agent := { requests := [], multiRegs := [], closeRequested := true },
        queue := [], connected := false, timeouts := [], completions := [] } =
      some (.terminated { requests := [], multiRegs := [], closeRequested := true }, []) ∧
    (sOne.closeRequested = true ∨ Message.close ∈ [Message.close]) :=
  ⟨run_terminates_iff_closed_and_empty.2.1 oracleAll 0
      { agent := { requests := [], multiRegs := [], closeRequested := true },
        queue := [], connected := false, timeouts := [], completions := [] } rfl rfl,
   run_terminates_iff_closed_and_empty.2.2.2 oracleAll [Message.close] sOne
      { requests := [(3, 9)], multiRegs := [3], closeRequested := true } rfl rfl⟩

theorem dispatch_no_wait (o : Oracle) (s : AgentState) (res : List (Nat × EngineResult))
    (s' : AgentState) (evs : List Event)
    (h : dispatch o s res = .ok (s', evs)) : waitTimeouts evs = [] := by
  simp only [dispatch] at h
  split at h
  · exact dispatch_results_no_wait o res s s' evs h
  · cases h

/-- World in which the engine suggests a 2000 ms timeout for the first
iteration of a run starting from an idle agent with one submission. -/
def wCex : World :=
  { agent := sIdle, queue := [.beginRequest 7], connected := true,
    timeouts := [some 2000], completions := [[(0, .ok)]] }

/-- Same world as `wCex` but with all senders gone, so the run also
terminates. -/
def wWit : World :=
  { agent := sIdle, queue := [.beginRequest 7], connected := false,
    timeouts := [some 2000], completions := [[(0, .ok)]] }

/-- Counterexample to claim C1 as stated: when the engine suggests a
timeout of 2000 ms, the loop blocks with a 2000 ms timeout, whereas the
claimed `min(suggested, 1000 ms)` would be 1000 ms. -/
theorem wait_timeout_not_min_counterexample :
    waitTimeouts (((run_loop oracleAll 2 wCex).getD (Outcome.blocked, [])).2) = [2000] ∧
    min 2000 DEFAULT_TIMEOUT_MS = 1000 ∧ (2000 : Nat) ≠ 1000 := by
  refine ⟨rfl, rfl, by decide⟩

theorem tail_drop_headD (ts : List (Option Nat)) (j : Nat) :
    ts.tail.drop j = ts.drop (j + 1) := by
  cases ts with
  | nil => simp
  | cons a tl => rfl

/-- Claim C1 (amended): in every iteration of the agent main loop, the
timeout passed to the blocking wait equals the engine-suggested timeout
of that iteration whenever the engine suggests one — the suggestion is
taken unchanged, even when it exceeds the 1000 ms default — and equals
the 1000 ms default exactly when the engine suggests none; in
particular, for a suggestion above 1000 ms the timeout used differs
from the claimed `min(suggested, 1000 ms)` clamp. -/
theorem wait_timeout_equals_suggestion :
    (∀ (o : Oracle) (fuel : Nat) (w : World) (out : Outcome) (trace : List Event),
      run_loop o fuel w = some (out, trace) →
      ∀ (i : Nat) (hi : i < (waitTimeouts trace).length),
        (waitTimeouts trace).get ⟨i, hi⟩ = loopTimeout ((w.timeouts.drop i).headD none)) ∧
    (∀ d : Nat, loopTimeout (some d) = d) ∧
    loopTimeout none = DEFAULT_TIMEOUT_MS ∧
    (∀ d : Nat, DEFAULT_TIMEOUT_MS < d →
      loopTimeout (some d) ≠ min d DEFAULT_TIMEOUT_MS) := by
  refine ⟨?_, fun d => rfl, rfl, ?_⟩
  · intro o fuel
    induction fuel with
    | zero =>
        intro w out trace h
        cases h
    | succ n ih =>
        intro w out trace h
        simp only [run_loop] at h
        by_cases hb : (w.agent.closeRequested && w.agent.requests.isEmpty) = true
        · rw [if_pos hb] at h
          injection h with h1
          injection h1 with h2 h3
          subst h3
          intro i hi
          exact absurd hi (by simp [waitTimeouts])
        · rw [if_neg hb] at h
          split at h
          next e hpoll =>
            injection h with h1
            injection h1 with h2 h3
            subst h3
            intro i hi
            exact absurd hi (by simp [waitTimeouts])
          next s0 hpoll =>
            injection h with h1
            injection h1 with h2 h3
            subst h3
            intro i hi
            exact absurd hi (by simp [waitTimeouts])
          next s1 hpoll =>
            split at h
            · split at h
              · split at h
                next e hd =>
                  injection h with h1
                  injection h1 with h2 h3
                  subst h3
                  intro i hi
                  cases i with
                  | zero =>
                      rw [List.drop_zero]
                      rfl
                  | succ j =>
                      exact absurd hi (by simp [waitTimeouts])
                next hd =>
                  injection h with h1
                  injection h1 with h2 h3
                  subst h3
                  intro i hi
                  cases i with
                  | zero =>
                      rw [List.drop_zero]
                      rfl
                  | succ j =>
                      exact absurd hi (by simp [waitTimeouts])
                next s2 evs hd =>
                  split at h
                  next hrec => cases h
                  next out2 tr hrec =>
                    injection h with h1
                    injection h1 with h2 h3
                    subst h3
                    have hw : waitTimeouts (Event.wait (loopTimeout (w.timeouts.headD none)) ::
                        (evs ++ tr)) =
                        loopTimeout (w.timeouts.headD none) :: waitTimeouts tr := by
                      have hnw := dispatch_no_wait o s1 _ s2 evs hd
                      simp [waitTimeouts, List.filterMap_append] at hnw ⊢
                      exact hnw
                    rw [hw]
                    intro i hi
                    cases i with
                    | zero =>
                        rw [List.drop_zero]
                        rfl
                    | succ j =>
                        have hj : j < (waitTimeouts tr).length := Nat.lt_of_succ_lt_succ hi
                        have hstep := ih _ out2 tr hrec j hj
                        calc (loopTimeout (w.timeouts.headD none) ::
                                waitTimeouts tr).get ⟨j + 1, hi⟩
                            = (waitTimeouts tr).get ⟨j, hj⟩ := rfl
                          _ = loopTimeout ((w.timeouts.tail.drop j).headD none) := hstep
                          _ = loopTimeout ((w.timeouts.drop (j + 1)).headD none) := by
                              rw [tail_drop_headD]
              · injection h with h1
                injection h1 with h2 h3
                subst h3
                intro i hi
                cases i with
                | zero =>
                    rw [List.drop_zero]
                    rfl
                | succ j =>
                    exact absurd hi (by simp [waitTimeouts])
            · injection h with h1
              injection h1 with h2 h3
              subst h3
              intro i hi
              exact absurd hi (by simp [waitTimeouts])
  · intro d hd hcontra
    have h1 : loopTimeout (some d) = d := rfl
    rw [h1] at hcontra
    omega

/-- Witness for the amended claim C1: in the concrete terminating run
from `wWit`, the first iteration waits exactly the suggested 2000 ms
(unclamped, above the default), the second — with no suggestion left —
waits exactly the 1000 ms default, and 2000 ms differs from the min
clamp. -/
theorem wait_timeout_equals_suggestion_witness :
    (waitTimeouts [Event.wait 2000, Event.engineRemove 0, Event.completed 0 7,
        Event.wait 1000]).get ⟨0, by decide⟩ =
      loopTimeout ((wWit.timeouts.drop 0).headD none) ∧
    (waitTimeouts [Event.wait 2000, Event.engineRemove 0, Event.completed 0 7,
        Event.wait 1000]).get ⟨1, by decide⟩ =
      loopTimeout ((wWit.timeouts.drop 1).headD none) ∧
    loopTimeout (some 2000) = 2000 ∧
    loopTimeout (some 2000) ≠ min 2000 DEFAULT_TIMEOUT_MS :=
  ⟨wait_timeout_equals_suggestion.1 oracleAll 3 wWit
      (.terminated { requests := [], multiRegs := [], closeRequested := true })
      [.wait 2000, .engineRemove 0, .completed 0 7, .wait 1000] rfl 0 (by decide),
   wait_timeout_equals_suggestion.1 oracleAll 3 wWit
      (.terminated { requests := [], multiRegs := [], closeRequested := true })
      [.wait 2000, .engineRemove 0, .completed 0 7, .wait 1000] rfl 1 (by decide),
   wait_timeout_equals_suggestion.2.1 2000,
   wait_timeout_equals_suggestion.2.2.2 2000 (by decide)⟩
